import Mathlib

/-!
Verification of the deployment-orchestration engine of the
`nodejs-deployment-service` repository.

The definitions below are a shallow embedding of the TypeScript sources:

* `src/jobs/deploymentJob.ts` — the `MemoryQueue` backend, the Redis-backed
  status store (`initializeDeploymentStatus`, `updateProjectStatus`,
  `updateSingleProjectStatus`, `updateOverallStatus`) and the multi-project
  pipeline `processMultiProjectDeployment`;
* `src/services/buildService.ts` — `chunkArray`, `buildMultipleProjects`;
* `src/services/nginxService.ts` — `updateNginxConfig`, `backupNginxConfig`,
  `restoreBackupConfig`, `reloadNginx`;
* the multi-project `uploadService` (`createRemoteBackup`);
* `src/utils/validator.ts` — `multiProjectDeploymentRequestSchema`;
* `src/controllers/webhookController.ts` — `handleMultiProjectDeployment`;
* `src/controllers/deploymentController.ts` — `getDeploymentStatus`.

External adapter calls (git clone, build command, ssh transfer, `nginx -t`,
reload, notification posting) are modelled by their outcomes, passed in as
parameters; the status messages written by the code are rendered as short
English stand-ins for the Chinese literals of the source.
-/

namespace DeployService

/-- Per-project stage, from `MultiProjectDeploymentStatus.projects[*].status`
in `src/types/interfaces.ts`. -/
inductive PStatus
  | pending
  | cloning
  | building
  | uploading
  | configuring
  | completed
  | failed
  deriving DecidableEq, Repr

/-- Aggregate status, from `MultiProjectDeploymentStatus.overallStatus`. -/
inductive OStatus
  | pending
  | inProgress
  | completed
  | failed
  | partialSuccess
  deriving DecidableEq, Repr

/-- One entry of `MultiProjectDeploymentStatus.projects`. -/
structure ProjState where
  status : PStatus
  progress : Nat
  message : String
  deriving DecidableEq, Repr

/-- `MultiProjectDeploymentStatus` (`src/types/interfaces.ts`).  The
`projects` object is modelled as an association list in JS-object key
insertion order. -/
structure MPDStatus where
  deploymentId : String
  overallStatus : OStatus
  projects : List (String × ProjState)
  startTime : String
  estimatedCompletion : Option String
  deriving DecidableEq, Repr

/-- The redis hash stored under `deployment:<id>:status`.  The multi-project
writers only populate the `data` field (a JSON blob, modelled as the decoded
`MPDStatus` value — `JSON.parse ∘ JSON.stringify` is the identity here); the
legacy writer `updateDeploymentStatus` and the reader in
`deploymentController.ts` use the other fields. -/
structure RHash where
  data : Option MPDStatus
  status : Option String
  progress : Option String
  currentStep : Option String
  startTime : Option String
  endTime : Option String
  estimatedCompletion : Option String
  deriving DecidableEq, Repr

/-- The hash with no fields set: what `MemoryRedis.hgetall` returns (`{}`)
for an absent key. -/
def RHash.empty : RHash :=
  ⟨none, none, none, none, none, none, none⟩

/-- The key/value store of `MemoryRedis` (restricted to the hash values the
status code uses), as an association list in key insertion order. -/
abbrev Store := List (String × RHash)

/-- First-match association-list lookup (JS `Map.get` / object indexing). -/
def lookupKey {α : Type} : List (String × α) → String → Option α
  | [], _ => none
  | (k, v) :: rest, key => if k = key then some v else lookupKey rest key

/-- `MemoryRedis.hgetall`: the stored hash, or `{}` when the key is absent. -/
def hgetall (s : Store) (k : String) : RHash :=
  match lookupKey s k with
  | some h => h
  | none => RHash.empty

/-- `MemoryRedis.hset` specialised to the way the status code calls it:
merge an update into the existing hash (creating the key if absent,
`Object.assign` on the stored object keeps the key's position). -/
def setHash : Store → String → (RHash → RHash) → Store
  | [], k, f => [(k, f RHash.empty)]
  | (k', h) :: rest, k, f =>
      if k' = k then (k', f h) :: rest else (k', h) :: setHash rest k f

/-- `redis.hset(statusKey, 'data', JSON.stringify(status))`. -/
def hsetData (s : Store) (k : String) (d : MPDStatus) : Store :=
  setHash s k (fun h => { h with data := some d })

/-- The template literal `` `deployment:${deploymentId}:status` ``. -/
def statusKey (deploymentId : String) : String :=
  "deployment:" ++ deploymentId ++ ":status"

/-- `deploymentStatus.projects[projectId] = v`: JS object assignment —
replace the value at an existing key in place, otherwise append. -/
def setProj : List (String × ProjState) → String → ProjState →
    List (String × ProjState)
  | [], p, v => [(p, v)]
  | (q, w) :: rest, p, v =>
      if q = p then (q, v) :: rest else (q, w) :: setProj rest p v

/-- `initializeDeploymentStatus` (`deploymentJob.ts:492`): build the fresh
record — `overallStatus: 'pending'`, every project `pending`/0 — and store
it under the `data` field of `deployment:<id>:status`. -/
def initializeDeploymentStatus (now : String) (s : Store)
    (deploymentId : String) (projectIds : List String) : Store :=
  let record : MPDStatus :=
    { deploymentId := deploymentId
      overallStatus := OStatus.pending
      projects := projectIds.foldl
        (fun l p => setProj l p ⟨PStatus.pending, 0, "waiting to start"⟩) []
      startTime := now
      estimatedCompletion := none }
  hsetData s (statusKey deploymentId) record

/-- `updateSingleProjectStatus` (`deploymentJob.ts:528`): read the hash; if
its `data` field is present, replace that project's entry and write the whole
record back; otherwise do nothing. -/
def updateSingleProjectStatus (s : Store) (deploymentId projectId : String)
    (st : PStatus) (message : String) (progressVal : Nat) : Store :=
  match (hgetall s (statusKey deploymentId)).data with
  | some d =>
      hsetData s (statusKey deploymentId)
        { d with projects := setProj d.projects projectId ⟨st, progressVal, message⟩ }
  | none => s

/-- `updateProjectStatus` (`deploymentJob.ts:517`): update every listed
project with the given stage and message, progress 0. -/
def updateProjectStatus (s : Store) (deploymentId : String)
    (projectIds : List String) (st : PStatus) (message : String) : Store :=
  projectIds.foldl
    (fun acc p => updateSingleProjectStatus acc deploymentId p st message 0) s

/-- `updateOverallStatus` (`deploymentJob.ts:552`): read the hash; if `data`
is present, overwrite `overallStatus` (stamping `estimatedCompletion` when
completing) and write the record back; otherwise do nothing. -/
def updateOverallStatus (now : String) (s : Store) (deploymentId : String)
    (st : OStatus) (_message : String) : Store :=
  match (hgetall s (statusKey deploymentId)).data with
  | some d =>
      hsetData s (statusKey deploymentId)
        { d with
            overallStatus := st
            estimatedCompletion :=
              if st = OStatus.completed then some now
              else d.estimatedCompletion }
  | none => s

/-- The `data` field persisted for a deployment: the record the pipeline's
status writers maintain. -/
def getData (s : Store) (deploymentId : String) : Option MPDStatus :=
  (hgetall s (statusKey deploymentId)).data

end DeployService

namespace DeployService

/-! ### Basic lemmas about the store and the projects map -/

theorem lookupKey_setHash_self (s : Store) (k : String) (f : RHash → RHash) :
    lookupKey (setHash s k f) k = some (f (hgetall s k)) := by
  induction s with
  | nil => simp [setHash, lookupKey, hgetall]
  | cons q rest ih =>
      obtain ⟨k', h⟩ := q
      by_cases hk : k' = k
      · subst hk
        simp [setHash, lookupKey, hgetall]
      · simp only [setHash, hgetall, lookupKey, if_neg hk]
        rw [ih]
        simp [hgetall]

theorem getData_hsetData (s : Store) (deploymentId : String) (d : MPDStatus) :
    getData (hsetData s (statusKey deploymentId) d) deploymentId = some d := by
  unfold getData hgetall hsetData
  rw [lookupKey_setHash_self]

theorem lookupKey_setProj_self (l : List (String × ProjState)) (p : String)
    (v : ProjState) : lookupKey (setProj l p v) p = some v := by
  induction l with
  | nil => simp [setProj, lookupKey]
  | cons q rest ih =>
      obtain ⟨q1, q2⟩ := q
      by_cases hq : q1 = p
      · subst hq
        simp [setProj, lookupKey]
      · simp [setProj, lookupKey, hq, ih]

theorem lookupKey_setProj_ne (l : List (String × ProjState)) (p q : String)
    (v : ProjState) (hq : q ≠ p) :
    lookupKey (setProj l p v) q = lookupKey l q := by
  induction l with
  | nil =>
      show lookupKey [(p, v)] q = none
      simp only [lookupKey]
      rw [if_neg (fun h : p = q => hq h.symm)]
  | cons r rest ih =>
      obtain ⟨r1, r2⟩ := r
      by_cases hr : r1 = p
      · simp only [setProj, if_pos hr, lookupKey]
        rw [if_neg (fun h : r1 = q => hq (h.symm.trans hr)),
          if_neg (fun h : r1 = q => hq (h.symm.trans hr))]
      · simp only [setProj, if_neg hr, lookupKey]
        by_cases hrq : r1 = q
        · rw [if_pos hrq, if_pos hrq]
        · rw [if_neg hrq, if_neg hrq]
          exact ih

theorem mem_of_lookupKey {α : Type} (l : List (String × α)) (p : String)
    (v : α) (h : lookupKey l p = some v) : (p, v) ∈ l := by
  induction l with
  | nil => simp [lookupKey] at h
  | cons q rest ih =>
      obtain ⟨q1, q2⟩ := q
      simp only [lookupKey] at h
      by_cases hq : q1 = p
      · rw [if_pos hq] at h
        cases h
        subst hq
        exact List.mem_cons_self _ _
      · rw [if_neg hq] at h
        exact List.mem_cons_of_mem _ (ih h)

/-- The per-stage bulk update on the projects map, as performed by the
per-project loops of the pipeline: assign `g p` to every `p` in the list. -/
def assignProjects (ps : List String) (g : String → ProjState)
    (l : List (String × ProjState)) : List (String × ProjState) :=
  ps.foldl (fun acc p => setProj acc p (g p)) l

theorem lookupKey_assignProjects_not_mem (ps : List String)
    (g : String → ProjState) (p : String) (hp : p ∉ ps) :
    ∀ l, lookupKey (assignProjects ps g l) p = lookupKey l p := by
  induction ps with
  | nil => intro l; rfl
  | cons q ps ih =>
      intro l
      have hpq : p ≠ q := fun h => hp (h ▸ List.mem_cons_self _ _)
      have hps : p ∉ ps := fun h => hp (List.mem_cons_of_mem _ h)
      show lookupKey (assignProjects ps g (setProj l q (g q))) p = lookupKey l p
      rw [ih hps, lookupKey_setProj_ne _ _ _ _ hpq]

theorem lookupKey_assignProjects_mem (ps : List String)
    (g : String → ProjState) (p : String) (hp : p ∈ ps) :
    ∀ l, lookupKey (assignProjects ps g l) p = some (g p) := by
  induction ps with
  | nil => cases hp
  | cons q ps ih =>
      intro l
      show lookupKey (assignProjects ps g (setProj l q (g q))) p = some (g p)
      by_cases hmem : p ∈ ps
      · exact ih hmem _
      · have hpq : p = q := by
          rcases List.mem_cons.mp hp with h | h
          · exact h
          · exact absurd h hmem
        subst hpq
        rw [lookupKey_assignProjects_not_mem ps g p hmem,
          lookupKey_setProj_self]

/-! ### The effect of the status writers on the persisted record -/

theorem getData_updateSingle (s : Store) (deploymentId projectId : String)
    (st : PStatus) (message : String) (progressVal : Nat) :
    getData (updateSingleProjectStatus s deploymentId projectId st message
        progressVal) deploymentId =
      (getData s deploymentId).map (fun d =>
        { d with projects :=
            setProj d.projects projectId ⟨st, progressVal, message⟩ }) := by
  unfold updateSingleProjectStatus
  cases h : (hgetall s (statusKey deploymentId)).data with
  | none =>
      have : getData s deploymentId = none := h
      rw [this]
      rfl
  | some d =>
      have : getData s deploymentId = some d := h
      rw [this, getData_hsetData]
      rfl

theorem getData_updateOverall (now : String) (s : Store)
    (deploymentId : String) (st : OStatus) (message : String) :
    getData (updateOverallStatus now s deploymentId st message) deploymentId =
      (getData s deploymentId).map (fun d =>
        { d with
            overallStatus := st
            estimatedCompletion :=
              if st = OStatus.completed then some now
              else d.estimatedCompletion }) := by
  unfold updateOverallStatus
  cases h : (hgetall s (statusKey deploymentId)).data with
  | none =>
      have : getData s deploymentId = none := h
      rw [this]
      rfl
  | some d =>
      have : getData s deploymentId = some d := h
      rw [this, getData_hsetData]
      rfl

/-- The canonical shape of a per-project status-update loop: each listed
project is written with arguments depending only on the project id. -/
theorem getData_stageFold (deploymentId : String) (ps : List String)
    (g : String → ProjState) :
    ∀ s : Store,
      getData (ps.foldl (fun acc p => updateSingleProjectStatus acc deploymentId p
          (g p).status (g p).message (g p).progress) s) deploymentId =
        (getData s deploymentId).map (fun d =>
          { d with projects := assignProjects ps g d.projects }) := by
  induction ps with
  | nil =>
      intro s
      cases h : getData s deploymentId with
      | none => simp [h, assignProjects]
      | some d => simp [h, assignProjects]
  | cons p ps ih =>
      intro s
      show getData (ps.foldl _ (updateSingleProjectStatus s deploymentId p
          (g p).status (g p).message (g p).progress)) deploymentId = _
      rw [ih, getData_updateSingle]
      cases h : getData s deploymentId with
      | none => rfl
      | some d =>
          show some _ = some _
          simp only [Option.map_some', Option.some.injEq]
          rfl

theorem getData_updateProjectStatus (s : Store) (deploymentId : String)
    (ps : List String) (st : PStatus) (message : String) :
    getData (updateProjectStatus s deploymentId ps st message) deploymentId =
      (getData s deploymentId).map (fun d =>
        { d with projects :=
            assignProjects ps (fun _ => ⟨st, 0, message⟩) d.projects }) := by
  exact getData_stageFold deploymentId ps (fun _ => ⟨st, 0, message⟩) s

theorem getData_initialize (now : String) (s : Store) (deploymentId : String)
    (ps : List String) :
    getData (initializeDeploymentStatus now s deploymentId ps) deploymentId =
      some
        { deploymentId := deploymentId
          overallStatus := OStatus.pending
          projects :=
            assignProjects ps (fun _ => ⟨PStatus.pending, 0, "waiting to start"⟩) []
          startTime := now
          estimatedCompletion := none } := by
  unfold initializeDeploymentStatus
  rw [getData_hsetData]
  rfl

/-! ### Build service (`src/services/buildService.ts`)

`buildProject` shells out to the project's build command; its outcome is a
parameter `buildRes : String → Option String` (the produced dist path on
success) with `buildErr` the error message on failure. -/

/-- Structural helper for `chunkArray`; the fuel argument bounds the number
of chunks and is instantiated with the list's length, which always
suffices because every step consumes at least one element. -/
def chunkArrayAux : Nat → List String → Nat → List (List String)
  | 0, _, _ => []
  | _ + 1, [], _ => []
  | fuel + 1, x :: xs, size =>
      if size = 0 then []
      else ((x :: xs).take size) :: chunkArrayAux fuel ((x :: xs).drop size) size

/-- `BuildService.chunkArray` (`buildService.ts:193`): split the list into
consecutive chunks of the given size (`for (i = 0; i < n; i += size)`).
For chunk size 0 the JS loop never advances; the model returns `[]` there
and is only ever used with a positive size (`config.CONCURRENT_BUILDS`). -/
def chunkArray (l : List String) (size : Nat) : List (List String) :=
  chunkArrayAux l.length l size

/-- The `results`/`errors` objects accumulated by
`BuildService.buildMultipleProjects`. -/
structure BuildOutcome where
  results : List (String × String)
  errors : List (String × String)
  deriving DecidableEq, Repr

/-- The body of one chunk of `buildMultipleProjects`: each project either
records its dist path in `results` or its error message in `errors`
(`buildService.ts:100`). -/
def buildOverList (buildRes : String → Option String)
    (buildErr : String → String) (ps : List String)
    (acc : BuildOutcome) : BuildOutcome :=
  ps.foldl (fun acc p =>
    match buildRes p with
    | some distPath => { acc with results := acc.results ++ [(p, distPath)] }
    | none => { acc with errors := acc.errors ++ [(p, buildErr p)] }) acc

/-- `Object.entries(errors).map(...).flatten('; ')` (`buildService.ts:115`). -/
def joinBuildErrors (errors : List (String × String)) : String :=
  String.intercalate "; " (errors.map (fun e => e.1 ++ ": " ++ e.2))

/-- `BuildService.buildMultipleProjects` (`buildService.ts:89`): process the
chunks sequentially; afterwards, throw iff any project recorded an error.
The accumulated `BuildOutcome` is returned alongside so that the side
effects of the stage stay observable. -/
def buildMultipleProjects (buildRes : String → Option String)
    (buildErr : String → String) (concurrentBuilds : Nat)
    (ps : List String) : Except String (List (String × String)) × BuildOutcome :=
  let chunks := chunkArray ps concurrentBuilds
  let out := chunks.foldl
    (fun acc chunk => buildOverList buildRes buildErr chunk acc) ⟨[], []⟩
  if out.errors = [] then (Except.ok out.results, out)
  else
    (Except.error ("some projects failed to build: " ++ joinBuildErrors out.errors),
     out)

theorem chunkArrayAux_flatten (size : Nat) (hs : size ≠ 0) :
    ∀ (fuel : Nat) (l : List String), l.length ≤ fuel →
      (chunkArrayAux fuel l size).flatten = l := by
  intro fuel
  induction fuel with
  | zero =>
      intro l hl
      rw [Nat.le_zero, List.length_eq_zero] at hl
      subst hl
      rfl
  | succ fuel ih =>
      intro l hl
      cases l with
      | nil => rfl
      | cons x xs =>
          rw [chunkArrayAux, if_neg hs, List.flatten_cons]
          rw [ih (((x :: xs)).drop size) (by
            simp only [List.length_drop, List.length_cons]
            simp only [List.length_cons] at hl
            omega)]
          exact List.take_append_drop size (x :: xs)

theorem chunkArray_flatten (size : Nat) (hs : size ≠ 0) (l : List String) :
    (chunkArray l size).flatten = l :=
  chunkArrayAux_flatten size hs l.length l le_rfl

theorem buildOverList_append (buildRes : String → Option String)
    (buildErr : String → String) (a b : List String) (acc : BuildOutcome) :
    buildOverList buildRes buildErr (a ++ b) acc =
      buildOverList buildRes buildErr b (buildOverList buildRes buildErr a acc) :=
  List.foldl_append _ _ _ _

theorem chunks_foldl_eq_buildOverList (buildRes : String → Option String)
    (buildErr : String → String) :
    ∀ (chunks : List (List String)) (acc : BuildOutcome),
      chunks.foldl (fun acc chunk => buildOverList buildRes buildErr chunk acc) acc =
        buildOverList buildRes buildErr chunks.flatten acc := by
  intro chunks
  induction chunks with
  | nil => intro acc; rfl
  | cons c cs ih =>
      intro acc
      rw [List.foldl_cons, List.flatten_cons, buildOverList_append, ih]

theorem buildOverList_errors (buildRes : String → Option String)
    (buildErr : String → String) :
    ∀ (ps : List String) (acc : BuildOutcome),
      (buildOverList buildRes buildErr ps acc).errors =
        acc.errors ++ ps.filterMap (fun p =>
          match buildRes p with
          | some _ => none
          | none => some (p, buildErr p)) := by
  intro ps
  induction ps with
  | nil => intro acc; simp [buildOverList]
  | cons p ps ih =>
      intro acc
      simp only [buildOverList, List.foldl_cons] at ih ⊢
      cases h : buildRes p with
      | some d =>
          simp only [h]
          rw [ih]
          simp [List.filterMap_cons, h]
      | none =>
          simp only [h]
          rw [ih]
          simp [List.filterMap_cons, h]

theorem buildOverList_results (buildRes : String → Option String)
    (buildErr : String → String) :
    ∀ (ps : List String) (acc : BuildOutcome),
      (buildOverList buildRes buildErr ps acc).results =
        acc.results ++ ps.filterMap (fun p =>
          (buildRes p).map (fun d => (p, d))) := by
  intro ps
  induction ps with
  | nil => intro acc; simp [buildOverList]
  | cons p ps ih =>
      intro acc
      simp only [buildOverList, List.foldl_cons] at ih ⊢
      cases h : buildRes p with
      | some d =>
          simp only [h]
          rw [ih]
          simp [List.filterMap_cons, h]
      | none =>
          simp only [h]
          rw [ih]
          simp [List.filterMap_cons, h]

/-! ### Nginx service (`src/services/nginxService.ts`)

The proxy configuration file and its timestamped `.backup.<Date.now()>`
copies are modelled as a small file-system state.  The backup list is kept
newest-first: under a monotone clock this is exactly the order `ls -t`
produces, so `ls -t ... | head -1` is the head of the list.  The outcomes of
`nginx -t` and of the reload command are parameters, as functions of the
configuration content on disk when they run.  Config-file generation
(`generateNginxConfig`, pure string templating) is abstracted: the generated
text enters as the `newConfig` parameter. -/

structure NginxState where
  configFile : Option String
  backups : List (Nat × String)
  reloadedWith : List String
  deriving DecidableEq, Repr

/-- Adapter outcomes and inputs for one `updateNginxConfig` call. -/
structure NginxParams where
  validateOk : String → Bool
  reloadOk : String → Bool
  newConfig : String
  now : Nat

/-- `NginxService.backupNginxConfig` (`nginxService.ts:142`): if the config
file exists, copy it to a timestamp-qualified backup.  No pruning of older
backups happens here.  (Copy errors are caught and logged.) -/
def backupNginxConfig (now : Nat) (s : NginxState) : NginxState :=
  match s.configFile with
  | some c => { s with backups := (now, c) :: s.backups }
  | none => s

/-- `NginxService.reloadNginx` (`nginxService.ts:164`): run the reload
command; record the configuration content in effect at that moment and
report whether the command succeeded. -/
def reloadNginx (reloadOk : String → Bool) (s : NginxState) :
    Bool × NginxState :=
  let current := s.configFile.getD ""
  (reloadOk current, { s with reloadedWith := s.reloadedWith ++ [current] })

/-- `NginxService.restoreBackupConfig` (`nginxService.ts:174`): find the
most recent backup (`ls -t ... | head -1`); if one exists, copy it back over
the config file and reload.  All errors (including a failing reload) are
caught and logged. -/
def restoreBackupConfig (reloadOk : String → Bool) (s : NginxState) :
    NginxState :=
  match s.backups with
  | [] => s
  | (_, c) :: _ => (reloadNginx reloadOk { s with configFile := some c }).2

/-- `NginxService.updateNginxConfig` (`nginxService.ts:12`): back up the
existing config, write the new one, validate it (`nginx -t`), reload; on any
failure restore the most recent backup and re-throw. -/
def updateNginxConfig (p : NginxParams) (s : NginxState) :
    Except String Unit × NginxState :=
  let s1 := backupNginxConfig p.now s
  let s2 := { s1 with configFile := some p.newConfig }
  if p.validateOk p.newConfig then
    let r := reloadNginx p.reloadOk s2
    if r.1 then (Except.ok (), r.2)
    else
      (Except.error "nginx config update failed: reload failed",
       restoreBackupConfig p.reloadOk r.2)
  else
    (Except.error "nginx config update failed: validation failed",
     restoreBackupConfig p.reloadOk s2)

/-! ### Upload service backups (multi-project `uploadService.ts`)

`UploadService.createRemoteBackup` snapshots the remote project directory to
`<remotePath>-backup-<timestamp>` and then prunes:
`ls -t | grep "^<name>-backup-" | tail -n +6 | xargs -r rm -rf`, i.e. it
keeps only the 5 newest backups.  The backup directory listing is modelled
as a list of timestamps, newest first (the `ls -t` order under a monotone
clock). -/
def createRemoteBackup (now : Nat) (targetDirExists : Bool)
    (backups : List Nat) : List Nat :=
  if targetDirExists then (now :: backups).take 5 else backups

/-! ### The multi-project pipeline (`deploymentJob.ts:373`,
`processMultiProjectDeployment`)

Adapter outcomes are inputs: `cloneOk`/`cloneErr` for
`gitService.cloneOrUpdateProject`, `buildRes`/`buildErr` for
`buildService.buildProject`, `serverCfgOk` for
`configService.getServerConfig`, `uploadOk` for
`uploadService.uploadMultipleProjects`, and `nginx` for the
`nginxService.updateNginxConfig` call.  `buildService.cleanupBuild` only
logs; `cleanupOnFailure` and both notification senders catch every error
internally (`Promise.allSettled` / try-catch around the HTTP post), so none
of them can throw into the pipeline. -/

structure PipelineInput where
  deploymentId : String
  projectIds : List String
  cloneOk : String → Bool
  cloneErr : String → String
  buildRes : String → Option String
  buildErr : String → String
  concurrentBuilds : Nat
  serverCfgOk : Bool
  uploadOk : Bool
  nginx : NginxParams
  now : String

/-- Observable outcome of one pipeline run: the final store and nginx state,
which stages were entered, the build stage's accumulated results/errors, and
whether the failure path (cleanup + failure notification) or the success
notification ran.  `outcome` is the promise's resolution: `error` means the
handler threw (the job is reported failed to the queue). -/
structure PipelineResult where
  store : Store
  nginxSt : NginxState
  buildOut : Option BuildOutcome
  enteredBuilding : Bool
  enteredUploading : Bool
  enteredConfiguring : Bool
  cleanupFailureRan : Bool
  failureNotified : Bool
  successNotified : Bool
  outcome : Except String Unit
  deriving Repr

/-- The `catch` block of `processMultiProjectDeployment`
(`deploymentJob.ts:476`): write overall status `failed`, run
`cleanupOnFailure`, send the failure notification, re-throw. -/
def failExit (inp : PipelineInput) (s : Store) (n : NginxState)
    (bout : Option BuildOutcome) (eb eu ec : Bool) (msg : String) :
    PipelineResult :=
  { store := updateOverallStatus inp.now s inp.deploymentId OStatus.failed
      ("deployment failed: " ++ msg)
    nginxSt := n
    buildOut := bout
    enteredBuilding := eb
    enteredUploading := eu
    enteredConfiguring := ec
    cleanupFailureRan := true
    failureNotified := true
    successNotified := false
    outcome := Except.error msg }

/-- `processMultiProjectDeployment` (`deploymentJob.ts:373`–490), stage by
stage.  Stage 1 launches every clone; each success handler writes
`cloning`/100, each failure handler writes `failed`/0, and `Promise.all`
rejects with the first failure.  Stage 2 runs `buildMultipleProjects` and
then updates only the projects present in its results.  Stages 3–5 are
config resolution, upload and nginx reconfiguration; stage 7 marks all
projects `completed` and the overall status `completed`. -/
def runPipeline (inp : PipelineInput) (s0 : Store) (n0 : NginxState) :
    PipelineResult :=
  let id := inp.deploymentId
  let ps := inp.projectIds
  let s1 := initializeDeploymentStatus inp.now s0 id ps
  -- step 1: fetch sources
  let s2 := updateProjectStatus s1 id ps PStatus.cloning "fetching source code"
  let s3 := ps.foldl (fun acc p =>
    if inp.cloneOk p then
      updateSingleProjectStatus acc id p PStatus.cloning "source code fetched" 100
    else
      updateSingleProjectStatus acc id p PStatus.failed
        ("source fetch failed: " ++ inp.cloneErr p) 0) s2
  match ps.find? (fun p => !inp.cloneOk p) with
  | some p =>
      failExit inp s3 n0 none false false false
        ("source fetch failed: " ++ inp.cloneErr p)
  | none =>
  -- step 2: build
  let s4 := updateProjectStatus s3 id ps PStatus.building "building projects"
  match buildMultipleProjects inp.buildRes inp.buildErr inp.concurrentBuilds ps with
  | (Except.error e, bout) => failExit inp s4 n0 (some bout) true false false e
  | (Except.ok projectBuilds, bout) =>
  let s5 := ps.foldl (fun acc p =>
    if (lookupKey projectBuilds p).isSome then
      updateSingleProjectStatus acc id p PStatus.building "project built" 100
    else acc) s4
  -- step 3: resolve server config (uses projectIds[0])
  if !inp.serverCfgOk then
    failExit inp s5 n0 (some bout) true false false "failed to get server config"
  else
  -- step 4: upload
  let s6 := updateProjectStatus s5 id ps PStatus.uploading "uploading files"
  if !inp.uploadOk then
    failExit inp s6 n0 (some bout) true true false "upload failed"
  else
  let s7 := ps.foldl (fun acc p =>
    updateSingleProjectStatus acc id p PStatus.uploading "files uploaded" 100) s6
  -- step 5: reconfigure nginx
  let s8 := updateProjectStatus s7 id ps PStatus.configuring "configuring nginx"
  match updateNginxConfig inp.nginx n0 with
  | (Except.error e, n1) => failExit inp s8 n1 (some bout) true true true e
  | (Except.ok _, n1) =>
  let s9 := ps.foldl (fun acc p =>
    updateSingleProjectStatus acc id p PStatus.configuring "nginx configured" 100) s8
  -- step 6: cleanupBuild keeps the artifacts (log only)
  -- step 7: completion
  let s10 := updateProjectStatus s9 id ps PStatus.completed "deployment complete"
  let s11 := updateOverallStatus inp.now s10 id OStatus.completed
    "all projects deployed"
  -- step 8: success notification (errors are swallowed inside the service)
  { store := s11
    nginxSt := n1
    buildOut := some bout
    enteredBuilding := true
    enteredUploading := true
    enteredConfiguring := true
    cleanupFailureRan := false
    failureNotified := false
    successNotified := true
    outcome := Except.ok () }

/-! ### Per-branch record computations for the pipeline -/

/-- The per-project state written by the clone stage's handlers
(`deploymentJob.ts:391`–398): success → `cloning`/100, failure →
`failed`/0 with the error message. -/
def cloneResult (cloneOk : String → Bool) (cloneErr : String → String)
    (p : String) : ProjState :=
  if cloneOk p then ⟨PStatus.cloning, 100, "source code fetched"⟩
  else ⟨PStatus.failed, 0, "source fetch failed: " ++ cloneErr p⟩

theorem getData_cloneFold (deploymentId : String) (ps : List String)
    (cloneOk : String → Bool) (cloneErr : String → String) (s : Store) :
    getData (ps.foldl (fun acc p =>
      if cloneOk p then
        updateSingleProjectStatus acc deploymentId p PStatus.cloning
          "source code fetched" 100
      else
        updateSingleProjectStatus acc deploymentId p PStatus.failed
          ("source fetch failed: " ++ cloneErr p) 0) s) deploymentId =
    (getData s deploymentId).map (fun d =>
      { d with projects :=
          assignProjects ps (cloneResult cloneOk cloneErr) d.projects }) := by
  have hfold : ps.foldl (fun acc p =>
      if cloneOk p then
        updateSingleProjectStatus acc deploymentId p PStatus.cloning
          "source code fetched" 100
      else
        updateSingleProjectStatus acc deploymentId p PStatus.failed
          ("source fetch failed: " ++ cloneErr p) 0) s =
      ps.foldl (fun acc p => updateSingleProjectStatus acc deploymentId p
        (cloneResult cloneOk cloneErr p).status
        (cloneResult cloneOk cloneErr p).message
        (cloneResult cloneOk cloneErr p).progress) s := by
    refine List.foldl_ext _ _ s ?_
    intro acc p _
    by_cases h : cloneOk p
    · simp [cloneResult, h]
    · simp [cloneResult, h]
  rw [hfold]
  exact getData_stageFold deploymentId ps (cloneResult cloneOk cloneErr) s

/-- A conditional per-project update loop only touches the projects passing
the condition. -/
theorem getData_condFold (deploymentId : String) (ps : List String)
    (cond : String → Bool) (g : String → ProjState) :
    ∀ s : Store,
      getData (ps.foldl (fun acc p =>
        if cond p then
          updateSingleProjectStatus acc deploymentId p (g p).status (g p).message
            (g p).progress
        else acc) s) deploymentId =
      (getData s deploymentId).map (fun d =>
        { d with projects := assignProjects (ps.filter cond) g d.projects }) := by
  induction ps with
  | nil =>
      intro s
      cases h : getData s deploymentId with
      | none => simp [h, assignProjects]
      | some d => simp [h, assignProjects]
  | cons p ps ih =>
      intro s
      rw [List.foldl_cons]
      by_cases hc : cond p
      · rw [if_pos hc, ih, getData_updateSingle]
        rw [List.filter_cons_of_pos (by exact hc)]
        cases h : getData s deploymentId with
        | none => rfl
        | some d =>
            show some _ = some _
            simp only [Option.map_some', Option.some.injEq]
            rfl
      · rw [if_neg hc, ih]
        rw [List.filter_cons_of_neg (by simpa using hc)]

/-- First-order variant of `getData_stageFold` for loops writing the same
stage, message and progress to every project. -/
theorem getData_constFold (deploymentId : String) (ps : List String)
    (st : PStatus) (msg : String) (pr : Nat) (s : Store) :
    getData (ps.foldl (fun acc p =>
        updateSingleProjectStatus acc deploymentId p st msg pr) s) deploymentId =
      (getData s deploymentId).map (fun d =>
        { d with projects :=
            assignProjects ps (fun _ => ⟨st, pr, msg⟩) d.projects }) :=
  getData_stageFold deploymentId ps (fun _ => ⟨st, pr, msg⟩) s

/-- First-order variant of `getData_condFold` for conditional loops writing
constant values. -/
theorem getData_condFoldConst (deploymentId : String) (ps : List String)
    (cond : String → Bool) (st : PStatus) (msg : String) (pr : Nat) (s : Store) :
    getData (ps.foldl (fun acc p =>
        if cond p then
          updateSingleProjectStatus acc deploymentId p st msg pr
        else acc) s) deploymentId =
      (getData s deploymentId).map (fun d =>
        { d with projects :=
            assignProjects (ps.filter cond) (fun _ => ⟨st, pr, msg⟩) d.projects }) :=
  getData_condFold deploymentId ps cond (fun _ => ⟨st, pr, msg⟩) s

/-- C1: on every run of the pipeline with a nonempty project set, the
persisted record exists at the end, its `overallStatus` is `completed` iff
every project of the deployment's project set has per-project status
`completed`, the handler resolves successfully iff `overallStatus` is
`completed`, and the final overall status is always one of
`completed`/`failed` — so every failure path persists `failed`. -/
theorem C1_overall_completed_iff_all_projects (inp : PipelineInput)
    (s0 : Store) (n0 : NginxState) (hne : inp.projectIds ≠ []) :
    ∃ rec, getData (runPipeline inp s0 n0).store inp.deploymentId = some rec ∧
      (rec.overallStatus = OStatus.completed ↔
        ∀ p ∈ inp.projectIds, ∃ v, lookupKey rec.projects p = some v ∧
          v.status = PStatus.completed) ∧
      ((runPipeline inp s0 n0).outcome = Except.ok () ↔
        rec.overallStatus = OStatus.completed) ∧
      (rec.overallStatus = OStatus.completed ∨
        rec.overallStatus = OStatus.failed) := by
  obtain ⟨p0, hp0⟩ := List.exists_mem_of_ne_nil inp.projectIds hne
  cases hfind : inp.projectIds.find? (fun p => !inp.cloneOk p) with
  | some pf =>
      -- stage 1 failed: some clone rejected, `Promise.all` aborted the run
      have hmem : pf ∈ inp.projectIds := List.mem_of_find?_eq_some hfind
      have hco : inp.cloneOk pf = false := by
        have := List.find?_some hfind
        simpa using this
      simp only [runPipeline, hfind, failExit]
      rw [getData_updateOverall, getData_cloneFold, getData_updateProjectStatus,
        getData_initialize]
      simp only [Option.map_some']
      refine ⟨_, rfl, ?_, ?_, Or.inr rfl⟩
      · refine iff_of_false (by intro h; exact OStatus.noConfusion h) ?_
        intro hall
        obtain ⟨v, hv, hst⟩ := hall pf hmem
        have hlook : lookupKey
            (assignProjects inp.projectIds
              (cloneResult inp.cloneOk inp.cloneErr)
              (assignProjects inp.projectIds
                (fun _ => ⟨PStatus.cloning, 0, "fetching source code"⟩)
                (assignProjects inp.projectIds
                  (fun _ => ⟨PStatus.pending, 0, "waiting to start"⟩) []))) pf =
            some (cloneResult inp.cloneOk inp.cloneErr pf) :=
          lookupKey_assignProjects_mem _ _ _ hmem _
        rw [hlook] at hv
        cases hv
        simp [cloneResult, hco] at hst
      · refine iff_of_false ?_ (by intro h; exact OStatus.noConfusion h)
        intro h
        exact Except.noConfusion h
  | none =>
  cases hbuild : buildMultipleProjects inp.buildRes inp.buildErr
      inp.concurrentBuilds inp.projectIds with
  | mk bres bout =>
  cases bres with
  | error e =>
      -- stage 2 failed: `buildMultipleProjects` threw its aggregate error
      simp only [runPipeline, hfind, hbuild, failExit]
      rw [getData_updateOverall, getData_updateProjectStatus, getData_cloneFold,
        getData_updateProjectStatus, getData_initialize]
      simp only [Option.map_some']
      refine ⟨_, rfl, ?_, ?_, Or.inr rfl⟩
      · refine iff_of_false (by intro h; exact OStatus.noConfusion h) ?_
        intro hall
        obtain ⟨v, hv, hst⟩ := hall p0 hp0
        have hlook : lookupKey
            (assignProjects inp.projectIds
              (fun _ => (⟨PStatus.building, 0, "building projects"⟩ : ProjState))
              (assignProjects inp.projectIds
                (cloneResult inp.cloneOk inp.cloneErr)
                (assignProjects inp.projectIds
                  (fun _ => ⟨PStatus.cloning, 0, "fetching source code"⟩)
                  (assignProjects inp.projectIds
                    (fun _ => ⟨PStatus.pending, 0, "waiting to start"⟩) [])))) p0 =
            some ⟨PStatus.building, 0, "building projects"⟩ :=
          lookupKey_assignProjects_mem _ _ _ hp0 _
        rw [hlook] at hv
        cases hv
        exact PStatus.noConfusion hst
      · refine iff_of_false ?_ (by intro h; exact OStatus.noConfusion h)
        intro h
        exact Except.noConfusion h
  | ok projectBuilds =>
  cases hcfg : inp.serverCfgOk with
  | false =>
      -- stage 3 failed: config resolution rejected
      simp only [runPipeline, hfind, hbuild, hcfg, Bool.not_false, if_true,
        failExit]
      rw [getData_updateOverall, getData_condFoldConst,
        getData_updateProjectStatus, getData_cloneFold,
        getData_updateProjectStatus, getData_initialize]
      simp only [Option.map_some']
      refine ⟨_, rfl, ?_, ?_, Or.inr rfl⟩
      · refine iff_of_false (by intro h; exact OStatus.noConfusion h) ?_
        intro hall
        obtain ⟨v, hv, hst⟩ := hall p0 hp0
        -- whichever branch of the conditional update loop applied to `p0`,
        -- its recorded stage is `building`
        have hstage : ∃ w, lookupKey
            (assignProjects
              (inp.projectIds.filter (fun p => (lookupKey projectBuilds p).isSome))
              (fun _ => (⟨PStatus.building, 100, "project built"⟩ : ProjState))
              (assignProjects inp.projectIds
                (fun _ => (⟨PStatus.building, 0, "building projects"⟩ : ProjState))
                (assignProjects inp.projectIds
                  (cloneResult inp.cloneOk inp.cloneErr)
                  (assignProjects inp.projectIds
                    (fun _ => ⟨PStatus.cloning, 0, "fetching source code"⟩)
                    (assignProjects inp.projectIds
                      (fun _ => ⟨PStatus.pending, 0, "waiting to start"⟩) []))))) p0 =
            some w ∧ w.status = PStatus.building := by
          by_cases hf : p0 ∈ inp.projectIds.filter
              (fun p => (lookupKey projectBuilds p).isSome)
          · exact ⟨_, lookupKey_assignProjects_mem _ _ _ hf _, rfl⟩
          · refine ⟨⟨PStatus.building, 0, "building projects"⟩, ?_, rfl⟩
            rw [lookupKey_assignProjects_not_mem _ _ _ hf]
            exact lookupKey_assignProjects_mem _ _ _ hp0 _
        obtain ⟨w, hw, hwst⟩ := hstage
        rw [hw] at hv
        cases hv
        rw [hwst] at hst
        exact PStatus.noConfusion hst
      · refine iff_of_false ?_ (by intro h; exact OStatus.noConfusion h)
        intro h
        exact Except.noConfusion h
  | true =>
  cases hup : inp.uploadOk with
  | false =>
      -- stage 4 failed: upload rejected
      simp only [runPipeline, hfind, hbuild, hcfg, hup, Bool.not_false,
        Bool.not_true, Bool.false_eq_true, Bool.true_eq_false, if_true,
        if_false, failExit]
      rw [getData_updateOverall, getData_updateProjectStatus,
        getData_condFoldConst, getData_updateProjectStatus, getData_cloneFold,
        getData_updateProjectStatus, getData_initialize]
      simp only [Option.map_some']
      refine ⟨_, rfl, ?_, ?_, Or.inr rfl⟩
      · refine iff_of_false (by intro h; exact OStatus.noConfusion h) ?_
        intro hall
        obtain ⟨v, hv, hst⟩ := hall p0 hp0
        have hlook := lookupKey_assignProjects_mem inp.projectIds
          (fun _ => (⟨PStatus.uploading, 0, "uploading files"⟩ : ProjState))
          p0 hp0
        rw [hlook] at hv
        cases hv
        exact PStatus.noConfusion hst
      · refine iff_of_false ?_ (by intro h; exact OStatus.noConfusion h)
        intro h
        exact Except.noConfusion h
  | true =>
  cases hng : updateNginxConfig inp.nginx n0 with
  | mk nres n1 =>
  cases nres with
  | error e =>
      -- stage 5 failed: nginx reconfiguration threw
      simp only [runPipeline, hfind, hbuild, hcfg, hup, hng, Bool.not_true,
        Bool.false_eq_true, if_false, failExit]
      rw [getData_updateOverall, getData_updateProjectStatus, getData_constFold,
        getData_updateProjectStatus, getData_condFoldConst,
        getData_updateProjectStatus, getData_cloneFold,
        getData_updateProjectStatus, getData_initialize]
      simp only [Option.map_some']
      refine ⟨_, rfl, ?_, ?_, Or.inr rfl⟩
      · refine iff_of_false (by intro h; exact OStatus.noConfusion h) ?_
        intro hall
        obtain ⟨v, hv, hst⟩ := hall p0 hp0
        have hlook := lookupKey_assignProjects_mem inp.projectIds
          (fun _ => (⟨PStatus.configuring, 0, "configuring nginx"⟩ : ProjState))
          p0 hp0
        rw [hlook] at hv
        cases hv
        exact PStatus.noConfusion hst
      · refine iff_of_false ?_ (by intro h; exact OStatus.noConfusion h)
        intro h
        exact Except.noConfusion h
  | ok u =>
      -- success path: stage 7 marks everything completed
      simp only [runPipeline, hfind, hbuild, hcfg, hup, hng, Bool.not_true,
        Bool.false_eq_true, if_false]
      rw [getData_updateOverall, getData_updateProjectStatus, getData_constFold,
        getData_updateProjectStatus, getData_constFold,
        getData_updateProjectStatus, getData_condFoldConst,
        getData_updateProjectStatus, getData_cloneFold,
        getData_updateProjectStatus, getData_initialize]
      simp only [Option.map_some']
      refine ⟨_, rfl, ?_, ?_, Or.inl rfl⟩
      · refine iff_of_true rfl ?_
        intro p hp
        refine ⟨⟨PStatus.completed, 0, "deployment complete"⟩, ?_, rfl⟩
        exact lookupKey_assignProjects_mem _ _ _ hp _
      · exact iff_of_true trivial rfl

/-- Witness for C1: a concrete single-project run (every stage succeeding)
satisfies the nonemptiness hypothesis and the conclusion. -/
theorem C1_witness :
    (["p1"] : List String) ≠ [] ∧
    (∃ rec,
      getData (runPipeline
        { deploymentId := "d1", projectIds := ["p1"]
          cloneOk := fun _ => true, cloneErr := fun _ => ""
          buildRes := fun _ => some "dist", buildErr := fun _ => ""
          concurrentBuilds := 2, serverCfgOk := true, uploadOk := true
          nginx := { validateOk := fun _ => true, reloadOk := fun _ => true,
                     newConfig := "cfg", now := 1 }
          now := "t0" } [] ⟨none, [], []⟩).store "d1" = some rec ∧
      (rec.overallStatus = OStatus.completed ↔
        ∀ p ∈ (["p1"] : List String), ∃ v, lookupKey rec.projects p = some v ∧
          v.status = PStatus.completed) ∧
      ((runPipeline
        { deploymentId := "d1", projectIds := ["p1"]
          cloneOk := fun _ => true, cloneErr := fun _ => ""
          buildRes := fun _ => some "dist", buildErr := fun _ => ""
          concurrentBuilds := 2, serverCfgOk := true, uploadOk := true
          nginx := { validateOk := fun _ => true, reloadOk := fun _ => true,
                     newConfig := "cfg", now := 1 }
          now := "t0" } [] ⟨none, [], []⟩).outcome = Except.ok () ↔
        rec.overallStatus = OStatus.completed) ∧
      (rec.overallStatus = OStatus.completed ∨
        rec.overallStatus = OStatus.failed)) :=
  ⟨by decide,
   C1_overall_completed_iff_all_projects _ [] ⟨none, [], []⟩ (by decide)⟩

/-- Adapter outcomes of the C2 scenario: projects `["a","b"]` on branch
`main`, both clones succeed, the build succeeds for `a` and fails for `b`,
everything later would succeed. -/
def scenarioAB : PipelineInput :=
  { deploymentId := "d1"
    projectIds := ["a", "b"]
    cloneOk := fun _ => true
    cloneErr := fun _ => ""
    buildRes := fun p => if p = "a" then some "dist-a" else none
    buildErr := fun _ => "build failed for b"
    concurrentBuilds := 2
    serverCfgOk := true
    uploadOk := true
    nginx := { validateOk := fun _ => true, reloadOk := fun _ => true,
               newConfig := "cfg", now := 1 }
    now := "t0" }

/-- C2, counterexample: in the scenario the per-project status persisted for
`b` after the run is `building` (the stage-start value), not `failed` — the
build stage never writes a `failed` per-project status. -/
theorem C2_counterexample :
    ((getData (runPipeline scenarioAB [] ⟨none, [], []⟩).store "d1").bind
        (fun d => lookupKey d.projects "b")).map (fun v => v.status) =
      some PStatus.building ∧
    some PStatus.building ≠ some PStatus.failed := by
  constructor
  · decide
  · decide

/-- C2, amended: the build stage runs to completion for the whole chunk —
`a`'s build completes and is recorded in the stage results, `b`'s error is
recorded in the stage's error map and in the thrown aggregate error — the
overall status becomes `failed` and no upload or configuring stage is
entered; but `b`'s persisted per-project record keeps status `building`
with the stage-start message, no per-project error. -/
theorem C2_amended :
    (runPipeline scenarioAB [] ⟨none, [], []⟩).buildOut =
      some ⟨[("a", "dist-a")], [("b", "build failed for b")]⟩ ∧
    (getData (runPipeline scenarioAB [] ⟨none, [], []⟩).store "d1").map
        (fun d => d.overallStatus) = some OStatus.failed ∧
    ((getData (runPipeline scenarioAB [] ⟨none, [], []⟩).store "d1").bind
        (fun d => lookupKey d.projects "b")) =
      some ⟨PStatus.building, 0, "building projects"⟩ ∧
    (runPipeline scenarioAB [] ⟨none, [], []⟩).enteredUploading = false ∧
    (runPipeline scenarioAB [] ⟨none, [], []⟩).enteredConfiguring = false ∧
    (runPipeline scenarioAB [] ⟨none, [], []⟩).outcome =
      Except.error "some projects failed to build: b: build failed for b" :=
  ⟨by decide, by decide, by decide, by decide, by decide, rfl⟩

/-- C9: if any project's source acquisition fails, that project is marked
`failed` immediately with its error, the whole deployment aborts — overall
status `failed`, the building stage is never entered, the failure cleanup
and the failure notification run, and the handler throws. -/
theorem C9_clone_failure_aborts (inp : PipelineInput) (s0 : Store)
    (n0 : NginxState) (p : String) (hp : p ∈ inp.projectIds)
    (hc : inp.cloneOk p = false) :
    ∃ rec, getData (runPipeline inp s0 n0).store inp.deploymentId = some rec ∧
      lookupKey rec.projects p =
        some ⟨PStatus.failed, 0, "source fetch failed: " ++ inp.cloneErr p⟩ ∧
      rec.overallStatus = OStatus.failed ∧
      (runPipeline inp s0 n0).enteredBuilding = false ∧
      (runPipeline inp s0 n0).cleanupFailureRan = true ∧
      (runPipeline inp s0 n0).failureNotified = true ∧
      (∃ msg, (runPipeline inp s0 n0).outcome = Except.error msg) := by
  have hex : (inp.projectIds.find? (fun q => !inp.cloneOk q)).isSome := by
    rw [List.find?_isSome]
    exact ⟨p, hp, by simp [hc]⟩
  obtain ⟨pf, hfind⟩ := Option.isSome_iff_exists.mp hex
  have hlook := lookupKey_assignProjects_mem inp.projectIds
    (cloneResult inp.cloneOk inp.cloneErr) p hp
    (assignProjects inp.projectIds
      (fun _ => ⟨PStatus.cloning, 0, "fetching source code"⟩)
      (assignProjects inp.projectIds
        (fun _ => ⟨PStatus.pending, 0, "waiting to start"⟩) []))
  simp only [runPipeline, hfind, failExit]
  rw [getData_updateOverall, getData_cloneFold, getData_updateProjectStatus,
    getData_initialize]
  simp only [Option.map_some']
  refine ⟨_, rfl, hlook.trans (by simp [cloneResult, hc]), ?_, ?_, ?_, ?_, ?_⟩ <;>
    first
      | rfl
      | trivial
      | exact ⟨_, rfl⟩

/-- Concrete input for the C9 witness: clone of `"b"` fails. -/
def cloneFailInput : PipelineInput :=
  { deploymentId := "d2"
    projectIds := ["a", "b"]
    cloneOk := fun p => p ≠ "b"
    cloneErr := fun _ => "repo unreachable"
    buildRes := fun _ => some "dist"
    buildErr := fun _ => ""
    concurrentBuilds := 2
    serverCfgOk := true
    uploadOk := true
    nginx := { validateOk := fun _ => true, reloadOk := fun _ => true,
               newConfig := "cfg", now := 1 }
    now := "t0" }

/-- Witness for C9 at the concrete clone-failure input. -/
theorem C9_witness :
    ("b" ∈ cloneFailInput.projectIds ∧ cloneFailInput.cloneOk "b" = false) ∧
    (∃ rec,
      getData (runPipeline cloneFailInput [] ⟨none, [], []⟩).store
          cloneFailInput.deploymentId = some rec ∧
      lookupKey rec.projects "b" =
        some ⟨PStatus.failed, 0,
          "source fetch failed: " ++ cloneFailInput.cloneErr "b"⟩ ∧
      rec.overallStatus = OStatus.failed ∧
      (runPipeline cloneFailInput [] ⟨none, [], []⟩).enteredBuilding = false ∧
      (runPipeline cloneFailInput [] ⟨none, [], []⟩).cleanupFailureRan = true ∧
      (runPipeline cloneFailInput [] ⟨none, [], []⟩).failureNotified = true ∧
      (∃ msg, (runPipeline cloneFailInput [] ⟨none, [], []⟩).outcome =
        Except.error msg)) :=
  ⟨⟨by decide, by decide⟩,
   C9_clone_failure_aborts cloneFailInput [] ⟨none, [], []⟩ "b" (by decide)
     (by decide)⟩

/-- C10: `updateSingleProjectStatus` is the identity on stores whose hash
for the deployment has no `data` field. -/
theorem updateSingle_noop_of_no_data (s : Store) (deploymentId projectId : String)
    (st : PStatus) (message : String) (progressVal : Nat)
    (h : (hgetall s (statusKey deploymentId)).data = none) :
    updateSingleProjectStatus s deploymentId projectId st message progressVal = s := by
  unfold updateSingleProjectStatus
  rw [h]

/-- C10: `updateOverallStatus` is the identity on stores whose hash for the
deployment has no `data` field. -/
theorem updateOverall_noop_of_no_data (now : String) (s : Store)
    (deploymentId : String) (st : OStatus) (message : String)
    (h : (hgetall s (statusKey deploymentId)).data = none) :
    updateOverallStatus now s deploymentId st message = s := by
  unfold updateOverallStatus
  rw [h]

/-- C10: when no status record with a `data` field exists under
`deployment:<id>:status`, both `updateSingleProjectStatus` and
`updateOverallStatus` leave the store exactly as it was — no key is created,
no key is modified, and no error is raised (both functions are total). -/
theorem C10_status_updates_noop_without_record (s : Store)
    (deploymentId projectId : String) (pst : PStatus) (ost : OStatus)
    (msg1 msg2 now : String) (progressVal : Nat)
    (h : (hgetall s (statusKey deploymentId)).data = none) :
    updateSingleProjectStatus s deploymentId projectId pst msg1 progressVal = s ∧
    updateOverallStatus now s deploymentId ost msg2 = s :=
  ⟨updateSingle_noop_of_no_data s deploymentId projectId pst msg1 progressVal h,
   updateOverall_noop_of_no_data now s deploymentId ost msg2 h⟩

/-- Witness for C10 at a concrete store: a record for a different deployment
and a hash for this deployment whose `data` field is empty. -/
theorem C10_witness :
    (hgetall [("deployment:other:status", RHash.empty),
              ("deployment:d1:status", { RHash.empty with status := some "pending" })]
        (statusKey "d1")).data = none ∧
    updateSingleProjectStatus
        [("deployment:other:status", RHash.empty),
         ("deployment:d1:status", { RHash.empty with status := some "pending" })]
        "d1" "admin-portal" PStatus.cloning "msg" 50 =
      [("deployment:other:status", RHash.empty),
       ("deployment:d1:status", { RHash.empty with status := some "pending" })] := by
  constructor
  · decide
  · exact (C10_status_updates_noop_without_record _ "d1" "admin-portal"
      PStatus.cloning OStatus.failed "msg" "m2" "t" 50 (by decide)).1

/-- Every build succeeding makes `buildMultipleProjects` return its results
without throwing. -/
theorem buildMultipleProjects_ok (buildRes : String → Option String)
    (buildErr : String → String) (concurrentBuilds : Nat)
    (hcc : concurrentBuilds ≠ 0) (ps : List String)
    (hball : ∀ p ∈ ps, (buildRes p).isSome) :
    buildMultipleProjects buildRes buildErr concurrentBuilds ps =
      (Except.ok (buildOverList buildRes buildErr ps ⟨[], []⟩).results,
       buildOverList buildRes buildErr ps ⟨[], []⟩) := by
  have herr : (buildOverList buildRes buildErr ps ⟨[], []⟩).errors = [] := by
    rw [buildOverList_errors]
    simp only [List.nil_append]
    rw [List.filterMap_eq_nil_iff]
    intro p hp
    obtain ⟨d, hd⟩ := Option.isSome_iff_exists.mp (hball p hp)
    simp [hd]
  simp only [buildMultipleProjects]
  rw [chunks_foldl_eq_buildOverList, chunkArray_flatten _ hcc, if_pos herr]

/-- C7: when the pipeline reaches the nginx stage (all earlier stages
succeed) with a prior configuration `c` on disk, and validation of the newly
applied configuration fails, then the prior content is restored from the
most recent snapshot, the reload command is invoked with the restored
configuration, the deployment's persisted overall status becomes `failed`,
and the handler throws. -/
theorem C7_nginx_validation_rollback (inp : PipelineInput) (s0 : Store)
    (n0 : NginxState) (c : String)
    (hclone : ∀ p ∈ inp.projectIds, inp.cloneOk p = true)
    (hball : ∀ p ∈ inp.projectIds, (inp.buildRes p).isSome)
    (hcc : inp.concurrentBuilds ≠ 0)
    (hcfg : inp.serverCfgOk = true) (hup : inp.uploadOk = true)
    (hprior : n0.configFile = some c)
    (hval : inp.nginx.validateOk inp.nginx.newConfig = false) :
    (runPipeline inp s0 n0).nginxSt.configFile = some c ∧
    (runPipeline inp s0 n0).nginxSt.reloadedWith.getLast? = some c ∧
    (∃ rec, getData (runPipeline inp s0 n0).store inp.deploymentId = some rec ∧
      rec.overallStatus = OStatus.failed) ∧
    (∃ msg, (runPipeline inp s0 n0).outcome = Except.error msg) := by
  have hfn : inp.projectIds.find? (fun p => !inp.cloneOk p) = none := by
    rw [List.find?_eq_none]
    intro x hx
    simp [hclone x hx]
  have hbm := buildMultipleProjects_ok inp.buildRes inp.buildErr
    inp.concurrentBuilds hcc inp.projectIds hball
  have hng : updateNginxConfig inp.nginx n0 =
      (Except.error "nginx config update failed: validation failed",
       { configFile := some c
         backups := (inp.nginx.now, c) :: n0.backups
         reloadedWith := n0.reloadedWith ++ [c] }) := by
    unfold updateNginxConfig backupNginxConfig restoreBackupConfig reloadNginx
    rw [hprior]
    simp [hval]
  simp only [runPipeline, hfn, hbm, hcfg, hup, hng, Bool.not_true,
    Bool.false_eq_true, if_false, failExit]
  refine ⟨?_, ?_, ?_, ?_⟩
  · first
      | rfl
      | trivial
  · exact List.getLast?_concat _
  · rw [getData_updateOverall, getData_updateProjectStatus, getData_constFold,
      getData_updateProjectStatus, getData_condFoldConst,
      getData_updateProjectStatus, getData_cloneFold,
      getData_updateProjectStatus, getData_initialize]
    simp only [Option.map_some']
    exact ⟨_, rfl, rfl⟩
  · exact ⟨_, rfl⟩

/-- Concrete input for the C7 witness: one project, every stage succeeding
except nginx validation. -/
def nginxFailInput : PipelineInput :=
  { deploymentId := "d3"
    projectIds := ["p1"]
    cloneOk := fun _ => true
    cloneErr := fun _ => ""
    buildRes := fun _ => some "dist"
    buildErr := fun _ => ""
    concurrentBuilds := 2
    serverCfgOk := true
    uploadOk := true
    nginx := { validateOk := fun _ => false, reloadOk := fun _ => true,
               newConfig := "broken config", now := 9 }
    now := "t0" }

/-- Witness for C7 at the concrete input, starting from a live prior
configuration `"old config"`. -/
theorem C7_witness :
    ((∀ p ∈ nginxFailInput.projectIds, nginxFailInput.cloneOk p = true) ∧
     (∀ p ∈ nginxFailInput.projectIds, (nginxFailInput.buildRes p).isSome) ∧
     nginxFailInput.concurrentBuilds ≠ 0 ∧
     nginxFailInput.serverCfgOk = true ∧ nginxFailInput.uploadOk = true ∧
     (⟨some "old config", [], []⟩ : NginxState).configFile = some "old config" ∧
     nginxFailInput.nginx.validateOk nginxFailInput.nginx.newConfig = false) ∧
    ((runPipeline nginxFailInput [] ⟨some "old config", [], []⟩).nginxSt.configFile =
        some "old config" ∧
     (runPipeline nginxFailInput []
        ⟨some "old config", [], []⟩).nginxSt.reloadedWith.getLast? =
        some "old config" ∧
     (∃ rec, getData (runPipeline nginxFailInput []
          ⟨some "old config", [], []⟩).store nginxFailInput.deploymentId =
            some rec ∧
        rec.overallStatus = OStatus.failed) ∧
     (∃ msg, (runPipeline nginxFailInput [] ⟨some "old config", [], []⟩).outcome =
        Except.error msg)) :=
  ⟨⟨by decide, by decide, by decide, by decide, by decide, by decide, by decide⟩,
   C7_nginx_validation_rollback nginxFailInput [] ⟨some "old config", [], []⟩
     "old config" (by decide) (by decide) (by decide) (by decide) (by decide)
     (by decide) (by decide)⟩

/-! ### C3: backup retention -/

/-- Iterate `updateNginxConfig` calls whose validation and reload both
succeed (the successful-mutation case), collecting the resulting state. -/
def nginxUpdateRun (updates : List (Nat × String)) (s : NginxState) :
    NginxState :=
  updates.foldl (fun st u =>
    (updateNginxConfig ⟨fun _ => true, fun _ => true, u.2, u.1⟩ st).2) s

/-- As `nginxUpdateRun`, but also reporting whether every mutation
succeeded. -/
def nginxUpdateRunOk (updates : List (Nat × String)) (s : NginxState) :
    Bool × NginxState :=
  updates.foldl (fun acc u =>
    match updateNginxConfig ⟨fun _ => true, fun _ => true, u.2, u.1⟩ acc.2 with
    | (Except.ok _, st) => (acc.1, st)
    | (Except.error _, st) => (false, st)) (true, s)

theorem take_append_take (a b : List Nat) (n : Nat) :
    (a ++ b.take n).take n = (a ++ b).take n := by
  rw [List.take_append_eq_append_take, List.take_append_eq_append_take,
    List.take_take]
  congr 1
  congr 1
  omega

/-- One upload-target mutation appends the newest snapshot and prunes to the
5 newest; folding keeps the 5 newest overall. -/
theorem foldBackup_take5 :
    ∀ (ts : List Nat) (l0 : List Nat), ts ≠ [] →
      ts.foldl (fun l t => createRemoteBackup t true l) l0 =
        (ts.reverse ++ l0).take 5 := by
  intro ts
  induction ts with
  | nil => intro l0 h; exact absurd rfl h
  | cons t ts ih =>
      intro l0 _
      cases ts with
      | nil => simp [createRemoteBackup]
      | cons t2 ts2 =>
          rw [List.foldl_cons,
            ih (createRemoteBackup t true l0) (by simp)]
          show ((t2 :: ts2).reverse ++ (t :: l0).take 5).take 5 = _
          rw [take_append_take]
          congr 1
          simp [List.reverse_cons, List.append_assoc]

/-- C3, counterexample: six successful mutations of the proxy configuration
leave six snapshots — not the five most recent — because
`backupNginxConfig` never prunes. -/
theorem C3_counterexample :
    (nginxUpdateRunOk
        [(1, "c1"), (2, "c2"), (3, "c3"), (4, "c4"), (5, "c5"), (6, "c6")]
        ⟨some "c0", [], []⟩).1 = true ∧
    (nginxUpdateRunOk
        [(1, "c1"), (2, "c2"), (3, "c3"), (4, "c4"), (5, "c5"), (6, "c6")]
        ⟨some "c0", [], []⟩).2.backups.length = 6 ∧
    ¬ (nginxUpdateRunOk
        [(1, "c1"), (2, "c2"), (3, "c3"), (4, "c4"), (5, "c5"), (6, "c6")]
        ⟨some "c0", [], []⟩).2.backups.length = 5 := by
  refine ⟨by decide, by decide, by decide⟩

/-- C3, amended: retention pruning applies only to the per-project upload
target — after N > 5 successful upload mutations exactly the 5 most recent
snapshots remain (newest first) — while proxy-configuration snapshots are
never pruned: every successful nginx mutation with a live config adds one
snapshot, so all of them accumulate. -/
theorem C3_amended :
    (∀ (ts : List Nat) (l0 : List Nat), 5 < ts.length →
      ts.foldl (fun l t => createRemoteBackup t true l) l0 =
        ts.reverse.take 5 ∧
      (ts.foldl (fun l t => createRemoteBackup t true l) l0).length = 5) ∧
    (∀ (updates : List (Nat × String)) (s : NginxState),
      s.configFile.isSome →
        (nginxUpdateRun updates s).backups.length =
          s.backups.length + updates.length) := by
  constructor
  · intro ts l0 h
    have hne : ts ≠ [] := by
      intro he
      rw [he] at h
      simp at h
    have heq : ts.foldl (fun l t => createRemoteBackup t true l) l0 =
        ts.reverse.take 5 := by
      rw [foldBackup_take5 ts l0 hne, List.take_append_of_le_length]
      rw [List.length_reverse]
      omega
    refine ⟨heq, ?_⟩
    rw [heq, List.length_take, List.length_reverse]
    omega
  · intro updates
    induction updates with
    | nil =>
        intro s _
        simp [nginxUpdateRun]
    | cons u us ih =>
        intro s hs
        obtain ⟨c, hc⟩ := Option.isSome_iff_exists.mp hs
        have hstep :
            (updateNginxConfig ⟨fun _ => true, fun _ => true, u.2, u.1⟩ s).2 =
            { configFile := some u.2
              backups := (u.1, c) :: s.backups
              reloadedWith := s.reloadedWith ++ [u.2] } := by
          simp [updateNginxConfig, backupNginxConfig, reloadNginx, hc]
        simp only [nginxUpdateRun, List.foldl_cons, hstep]
        have hrest := ih
          { configFile := some u.2
            backups := (u.1, c) :: s.backups
            reloadedWith := s.reloadedWith ++ [u.2] } (by simp)
        simp only [nginxUpdateRun] at hrest
        rw [hrest]
        simp only [List.length_cons]
        omega

/-- Witness for C3's amended statement at concrete inputs: six upload
mutations keep exactly the snapshots `[6, 5, 4, 3, 2, 1].take 5`, and two
nginx mutations add two snapshots. -/
theorem C3_witness :
    (5 < ([1, 2, 3, 4, 5, 6] : List Nat).length ∧
      ([1, 2, 3, 4, 5, 6] : List Nat).foldl
          (fun l t => createRemoteBackup t true l) [] =
        ([1, 2, 3, 4, 5, 6] : List Nat).reverse.take 5 ∧
      (([1, 2, 3, 4, 5, 6] : List Nat).foldl
          (fun l t => createRemoteBackup t true l) []).length = 5) ∧
    ((⟨some "c0", [], []⟩ : NginxState).configFile.isSome ∧
      (nginxUpdateRun [(1, "c1"), (2, "c2")] ⟨some "c0", [], []⟩).backups.length =
        (⟨some "c0", [], []⟩ : NginxState).backups.length + 2) :=
  ⟨⟨by decide, C3_amended.1 [1, 2, 3, 4, 5, 6] [] (by decide)⟩,
   ⟨by decide, C3_amended.2 [(1, "c1"), (2, "c2")] ⟨some "c0", [], []⟩ (by decide)⟩⟩

/-! ### C8: trigger validation (`src/utils/validator.ts`,
`src/controllers/webhookController.ts`) -/

/-- A multi-project trigger payload (`DeploymentRequest` in
`src/types/interfaces.ts`), with `metadata.priority` surfaced as the one
metadata field the controller reads. -/
structure TriggerPayload where
  projectIds : List String
  branch : String
  commitHash : Option String
  triggerBy : String
  timestamp : String
  priorityMeta : Option String
  deriving DecidableEq, Repr

/-- `multiProjectDeploymentRequestSchema` with
`validateMultiProjectDeploymentRequest` (`validator.ts:20`, `:49`): the Joi
rules, checked in schema-key order with abort-early reporting; a violation
throws (modelled as `Except.error`).  `projectIds` must be an array of 1..10
strings of 1..100 characters; `branch` and `triggerBy` are strings of 1..100
characters; `timestamp` is a required non-empty string; `commitHash`, when
present, has 7..40 characters; `metadata.priority`, when present, is one of
low/normal/high. -/
def validateMultiProjectDeploymentRequest (p : TriggerPayload) :
    Except String TriggerPayload :=
  if p.projectIds.length < 1 ∨ 10 < p.projectIds.length then
    Except.error "projectIds must contain between 1 and 10 items"
  else if p.projectIds.any (fun s => s.length < 1 || 100 < s.length) then
    Except.error "each projectId must be 1 to 100 characters"
  else if p.branch.length < 1 ∨ 100 < p.branch.length then
    Except.error "branch must be 1 to 100 characters"
  else if p.triggerBy.length < 1 ∨ 100 < p.triggerBy.length then
    Except.error "triggerBy must be 1 to 100 characters"
  else if p.timestamp.length < 1 then
    Except.error "timestamp is not allowed to be empty"
  else if p.commitHash.any (fun h => h.length < 7 || 40 < h.length) then
    Except.error "commitHash must be 7 to 40 characters"
  else if p.priorityMeta.any
      (fun pr => pr != "low" && pr != "normal" && pr != "high") then
    Except.error "metadata.priority must be one of low, normal, high"
  else Except.ok p

/-- One queued job as created by `deploymentQueue.add` from the webhook
controller: job id (= the deployment id), payload, numeric priority. -/
structure WebhookJob where
  id : String
  payload : TriggerPayload
  priority : Nat
  deriving DecidableEq, Repr

inductive WebhookResp
  | unauthorized
  | badRequest (msg : String)
  | accepted (deploymentId : String)
  deriving DecidableEq, Repr

/-- `WebhookController.handleMultiProjectDeployment`
(`webhookController.ts:9`): reject on a wrong `x-webhook-secret` header
(401); validate the body — the catch block answers 400 with the error
message and nothing is enqueued; otherwise `deploymentQueue.add` with
priority high → 10, low → 1, else 5, `jobId = deploymentId`. -/
def handleMultiProjectDeployment (providedSecret webhookSecret : String)
    (newDeploymentId : String) (body : TriggerPayload)
    (queue : List WebhookJob) : WebhookResp × List WebhookJob :=
  if providedSecret ≠ webhookSecret then (WebhookResp.unauthorized, queue)
  else
    match validateMultiProjectDeploymentRequest body with
    | Except.error msg => (WebhookResp.badRequest msg, queue)
    | Except.ok data =>
        (WebhookResp.accepted newDeploymentId,
         queue ++ [⟨newDeploymentId, data,
           if data.priorityMeta = some "high" then 10
           else if data.priorityMeta = some "low" then 1 else 5⟩])

/-- C8: an authenticated trigger whose project set is empty or has more than
10 projects is answered with the validation error and no job is created in
the queue. -/
theorem C8_invalid_project_set_rejected (providedSecret webhookSecret : String)
    (newId : String) (body : TriggerPayload) (queue : List WebhookJob)
    (hsec : providedSecret = webhookSecret)
    (hbad : body.projectIds = [] ∨ 10 < body.projectIds.length) :
    (handleMultiProjectDeployment providedSecret webhookSecret newId body
        queue).1 =
      WebhookResp.badRequest "projectIds must contain between 1 and 10 items" ∧
    (handleMultiProjectDeployment providedSecret webhookSecret newId body
        queue).2 = queue := by
  have hcond : body.projectIds.length < 1 ∨ 10 < body.projectIds.length := by
    rcases hbad with h | h
    · left
      rw [h]
      decide
    · right
      exact h
  have hval : validateMultiProjectDeploymentRequest body =
      Except.error "projectIds must contain between 1 and 10 items" := by
    unfold validateMultiProjectDeploymentRequest
    rw [if_pos hcond]
  unfold handleMultiProjectDeployment
  rw [if_neg (by simp [hsec]), hval]
  exact ⟨rfl, rfl⟩

/-- Witness for C8: an authenticated request with an empty project set. -/
theorem C8_witness :
    (("s3cret" : String) = "s3cret" ∧
      (([] : List String) = [] ∨ 10 < ([] : List String).length)) ∧
    ((handleMultiProjectDeployment "s3cret" "s3cret" "deploy-1"
        ⟨[], "main", none, "ci", "2025-01-07T10:00:00Z", none⟩ []).1 =
      WebhookResp.badRequest "projectIds must contain between 1 and 10 items" ∧
     (handleMultiProjectDeployment "s3cret" "s3cret" "deploy-1"
        ⟨[], "main", none, "ci", "2025-01-07T10:00:00Z", none⟩ []).2 = []) :=
  ⟨⟨rfl, Or.inl rfl⟩,
   C8_invalid_project_set_rejected "s3cret" "s3cret" "deploy-1"
     ⟨[], "main", none, "ci", "2025-01-07T10:00:00Z", none⟩ [] rfl
     (Or.inl rfl)⟩

/-! ### The in-process queue backend (`MemoryQueue`, `deploymentJob.ts:14`) -/

/-- Job states used by `MemoryQueue` (and by Bull's `getState`). -/
inductive JStatus
  | waiting
  | active
  | completed
  | failed
  deriving DecidableEq, Repr

/-- The job object `MemoryQueue.add` stores:
`{id, data, options, status: 'waiting', progress: 0, timestamp}`.  The
options (`priority`, `attempts` = max attempts) are retained here to make
visible that `MemoryQueue` never reads them; `order` is the enqueue
timestamp used for FIFO bookkeeping. -/
structure MemJob where
  id : String
  status : JStatus
  progressVal : Nat
  priority : Nat
  maxAttempts : Nat
  order : Nat
  deriving DecidableEq, Repr

/-- `MemoryQueue.getWaiting`: the waiting jobs in `Map` insertion order. -/
def memWaitingSnapshot (jobs : List MemJob) : List MemJob :=
  jobs.filter (fun j => j.status = JStatus.waiting)

/-- The order in which one `processJobs` run executes handlers: the waiting
snapshot in insertion order — the stored `priority` option plays no role. -/
def memProcessOrder (jobs : List MemJob) : List String :=
  (memWaitingSnapshot jobs).map (fun j => j.id)

/-- The effect of one handler invocation in `processJobs`
(`deploymentJob.ts:93`–100): resolve → `completed`; throw → `failed`.
There is no retry bookkeeping: the catch block marks the job `failed`
immediately, whatever `options.attempts` said. -/
def memRunJob (handlerOk : String → Bool) (j : MemJob) : MemJob :=
  { j with status := if handlerOk j.id then JStatus.completed else JStatus.failed }

/-- One complete `processJobs` run over the waiting snapshot. -/
def memProcessRun (handlerOk : String → Bool) (jobs : List MemJob) :
    List MemJob :=
  jobs.map (fun j =>
    if j.status = JStatus.waiting then memRunJob handlerOk j else j)

/-- Modelled from the spec: the durable backend's dequeue rule (§4.1,
"higher priority value is dequeued first among waiting jobs; ties broken by
enqueue order (FIFO)").  The durable backend itself (Bull) is not part of
the repository sources. -/
def specNextWaiting (jobs : List MemJob) : Option MemJob :=
  (jobs.filter (fun j => j.status = JStatus.waiting)).foldl (fun best j =>
    match best with
    | none => some j
    | some b =>
        if b.priority < j.priority ∨
            (j.priority = b.priority ∧ j.order < b.order) then some j
        else some b) none

/-- Status plus re-schedule delay after a handler exception. -/
structure SpecRetryOutcome where
  status : JStatus
  delayMs : Option Nat
  deriving DecidableEq, Repr

/-- Modelled from the spec: the durable backend's retry policy (§4.1, "on
handler exception, if `attempt < maxAttempts`, re-schedule with exponential
backoff; otherwise mark `failed` and emit `failed`").  `attempt` is the
1-based number of the attempt that threw; the exponential delay doubles per
attempt from the configured base. -/
def specOnException (backoffBase attempt maxAttempts : Nat) :
    SpecRetryOutcome :=
  if attempt < maxAttempts then
    ⟨JStatus.waiting, some (backoffBase * 2 ^ (attempt - 1))⟩
  else ⟨JStatus.failed, none⟩

/-- C4, counterexample: with jobs `a` (priority 1, enqueued first) and `b`
(priority 10) both waiting and a handler that throws on `a` at attempt 1 of
3, `MemoryQueue` executes `a` first and marks it `failed`, while the spec'd
durable backend dequeues `b` first and re-schedules `a` — the two backends
are distinguishable. -/
theorem C4_counterexample :
    (memProcessOrder
        [⟨"a", JStatus.waiting, 0, 1, 3, 0⟩,
         ⟨"b", JStatus.waiting, 0, 10, 3, 1⟩]).head? = some "a" ∧
    (specNextWaiting
        [⟨"a", JStatus.waiting, 0, 1, 3, 0⟩,
         ⟨"b", JStatus.waiting, 0, 10, 3, 1⟩]).map (fun j => j.id) =
      some "b" ∧
    some "a" ≠ some "b" ∧
    (memRunJob (fun _ => false) ⟨"a", JStatus.waiting, 0, 1, 3, 0⟩).status =
      JStatus.failed ∧
    (specOnException 2000 1 3).status = JStatus.waiting ∧
    JStatus.failed ≠ JStatus.waiting := by
  refine ⟨by decide, by decide, by decide, by decide, by decide, by decide⟩

/-- C4, amended: within a process lifetime `MemoryQueue` accepts the same
`add`/`getJob`/`process` calls but is not behaviorally equivalent to the
spec'd durable backend: it executes waiting jobs in insertion order,
unchanged under any reassignment of priorities, and a handler exception
marks the job `failed` immediately even when `attempt < maxAttempts`,
whereas the spec'd backend re-schedules such a job with exponential
backoff. -/
theorem C4_amended :
    (∀ (jobs : List MemJob) (prio : String → Nat),
      memProcessOrder (jobs.map (fun j => { j with priority := prio j.id })) =
        memProcessOrder jobs) ∧
    (∀ (handlerOk : String → Bool) (j : MemJob),
      j.status = JStatus.waiting → handlerOk j.id = false →
        (memRunJob handlerOk j).status = JStatus.failed) ∧
    (∀ (backoffBase attempt maxAttempts : Nat), attempt < maxAttempts →
      (specOnException backoffBase attempt maxAttempts).status =
        JStatus.waiting) := by
  refine ⟨?_, ?_, ?_⟩
  · intro jobs prio
    unfold memProcessOrder memWaitingSnapshot
    rw [List.filter_map, List.map_map]
    rfl
  · intro handlerOk j _ hko
    simp [memRunJob, hko]
  · intro backoffBase attempt maxAttempts h
    simp [specOnException, h]

/-- Witness for C4's amended statement at concrete inputs. -/
theorem C4_witness :
    (memProcessOrder
        (([⟨"a", JStatus.waiting, 0, 1, 3, 0⟩,
           ⟨"b", JStatus.waiting, 0, 10, 3, 1⟩] : List MemJob).map
          (fun j => { j with priority := (7 : Nat) })) =
      memProcessOrder
        [⟨"a", JStatus.waiting, 0, 1, 3, 0⟩,
         ⟨"b", JStatus.waiting, 0, 10, 3, 1⟩]) ∧
    ((⟨"a", JStatus.waiting, 0, 1, 3, 0⟩ : MemJob).status = JStatus.waiting ∧
      (memRunJob (fun _ => false) ⟨"a", JStatus.waiting, 0, 1, 3, 0⟩).status =
        JStatus.failed) ∧
    ((1 : Nat) < 3 ∧ (specOnException 2000 1 3).status = JStatus.waiting) :=
  ⟨C4_amended.1 _ (fun _ => 7),
   ⟨rfl, C4_amended.2.1 (fun _ => false) ⟨"a", JStatus.waiting, 0, 1, 3, 0⟩
     rfl rfl⟩,
   ⟨by decide, C4_amended.2.2 2000 1 3 (by decide)⟩⟩

/-! ### C5: the MemoryQueue scheduling discipline as a transition system

`add` enqueues (`jobId = data.deploymentId`, overwriting any existing entry
for that id with a fresh `waiting` job) and schedules `processJobs` via
`setImmediate`.  `processJobs` first checks the `processing` flag and
returns at once when set; otherwise it sets the flag, snapshots the waiting
jobs and executes them one at a time, awaiting each handler, and clears the
flag in its `finally`.  The interleaving of the event loop is modelled by a
step relation: a runner task is a `processJobs` execution that passed the
guard; between its awaits, `add` calls and further `processJobs` wake-ups
may fire in any order.  (Handler completion writes the job's status back to
the map entry for its id; the source mutates the snapshotted object, which
coincides with the map entry unless the job was overwritten mid-run — the
scheduling facts proved below do not depend on that difference.) -/

/-- `MemoryQueue.add` (`deploymentJob.ts:20`): `Map.set` keeps an existing
key's position and replaces its value with a fresh waiting job, otherwise
appends. -/
def addJob (jobs : List MemJob) (id : String) (priority maxAttempts order : Nat) :
    List MemJob :=
  if jobs.any (fun j => j.id = id) then
    jobs.map (fun j =>
      if j.id = id then ⟨id, JStatus.waiting, 0, priority, maxAttempts, order⟩
      else j)
  else jobs ++ [⟨id, JStatus.waiting, 0, priority, maxAttempts, order⟩]

/-- Write a job's status (the `jobData.status = ...` assignments). -/
def setJobStatus (jobs : List MemJob) (id : String) (st : JStatus) :
    List MemJob :=
  jobs.map (fun j => if j.id = id then { j with status := st } else j)

/-- Ids of the waiting jobs, in map order (the `processJobs` snapshot). -/
def waitingIds (jobs : List MemJob) : List String :=
  (jobs.filter (fun j => j.status = JStatus.waiting)).map (fun j => j.id)

/-- One in-flight `processJobs` execution: either between iterations with
the remaining snapshot, or awaiting the handler of `current`. -/
inductive Runner
  | running (pending : List String)
  | awaitingHandler (current : String) (pending : List String)
  deriving DecidableEq, Repr

/-- The queue state: the jobs map, the `processing` flag, and the in-flight
`processJobs` executions. -/
structure QState where
  jobs : List MemJob
  processing : Bool
  runners : List Runner
  deriving DecidableEq, Repr

def initQ : QState := { jobs := [], processing := false, runners := [] }

/-- The event-loop steps of `MemoryQueue`. -/
inductive QStep : QState → QState → Prop
  | add (s : QState) (id : String) (priority maxAttempts order : Nat) :
      QStep s { s with jobs := addJob s.jobs id priority maxAttempts order }
  | beginRun (s : QState) (h : s.processing = false) :
      QStep s { s with
        processing := true
        runners := s.runners ++ [Runner.running (waitingIds s.jobs)] }
  | beginSkip (s : QState) (h : s.processing = true) :
      QStep s s
  | startJob (s : QState) (j : String) (rest : List String)
      (pre post : List Runner)
      (h : s.runners = pre ++ Runner.running (j :: rest) :: post) :
      QStep s { s with
        jobs := setJobStatus s.jobs j JStatus.active
        runners := pre ++ Runner.awaitingHandler j rest :: post }
  | finishJob (s : QState) (j : String) (rest : List String) (ok : Bool)
      (pre post : List Runner)
      (h : s.runners = pre ++ Runner.awaitingHandler j rest :: post) :
      QStep s { s with
        jobs := setJobStatus s.jobs j
          (if ok then JStatus.completed else JStatus.failed)
        runners := pre ++ Runner.running rest :: post }
  | endRun (s : QState) (pre post : List Runner)
      (h : s.runners = pre ++ Runner.running [] :: post) :
      QStep s { s with processing := false, runners := pre ++ post }

/-- States reachable from the empty queue. -/
inductive QReachable : QState → Prop
  | init : QReachable initQ
  | step {s t : QState} : QReachable s → QStep s t → QReachable t

/-- The ids with a handler invocation currently in flight. -/
def activeIds (s : QState) : List String :=
  s.runners.filterMap (fun r =>
    match r with
    | Runner.awaitingHandler j _ => some j
    | _ => none)

/-- The `processing` flag discipline: at most one `processJobs` execution is
ever in flight, and none while the flag is clear. -/
def QInv (s : QState) : Prop :=
  s.runners.length ≤ 1 ∧ (s.processing = false → s.runners = [])

theorem qinv_step {s t : QState} (hs : QInv s) (h : QStep s t) : QInv t := by
  cases h with
  | add id priority maxAttempts order => exact hs
  | beginRun h =>
      have hr : s.runners = [] := hs.2 h
      refine ⟨?_, ?_⟩
      · show (s.runners ++ [Runner.running (waitingIds s.jobs)]).length ≤ 1
        rw [hr]
        simp
      · intro hf
        exact absurd hf (by simp)
  | beginSkip h => exact hs
  | startJob j rest pre post h =>
      refine ⟨?_, ?_⟩
      · show (pre ++ Runner.awaitingHandler j rest :: post).length ≤ 1
        have := hs.1
        rw [h] at this
        simpa using this
      · intro hf
        have hr : s.runners = [] := hs.2 hf
        rw [h] at hr
        exact absurd hr (by simp)
  | finishJob j rest ok pre post h =>
      refine ⟨?_, ?_⟩
      · show (pre ++ Runner.running rest :: post).length ≤ 1
        have := hs.1
        rw [h] at this
        simpa using this
      · intro hf
        have hr : s.runners = [] := hs.2 hf
        rw [h] at hr
        exact absurd hr (by simp)
  | endRun pre post h =>
      have := hs.1
      rw [h] at this
      simp only [List.length_append, List.length_cons] at this
      have hpre : pre = [] := List.length_eq_zero.mp (by omega)
      have hpost : post = [] := List.length_eq_zero.mp (by omega)
      subst hpre
      subst hpost
      exact ⟨by simp, fun _ => rfl⟩

theorem qreachable_inv {s : QState} (h : QReachable s) : QInv s := by
  induction h with
  | init => exact ⟨by decide, fun _ => rfl⟩
  | step _ hstep ih => exact qinv_step ih hstep

/-- C5: in every reachable state of `MemoryQueue` — in particular after any
`add` of a deployment id whose job is still waiting or active — at most one
handler invocation per job id is in flight; a second enqueue never creates
a second concurrent execution of that id. -/
theorem C5_at_most_one_active_per_id (s : QState) (h : QReachable s)
    (id : String) : (activeIds s).count id ≤ 1 := by
  have hlen : (activeIds s).length ≤ 1 :=
    le_trans (List.length_filterMap_le _ _) (qreachable_inv h).1
  exact le_trans (List.count_le_length _ _) hlen

/-- Witness for C5: the reachable state in which job `"a"` was enqueued, a
`processJobs` run started and its handler is in flight. -/
theorem C5_witness :
    QReachable
      { jobs := [⟨"a", JStatus.active, 0, 5, 3, 0⟩]
        processing := true
        runners := [Runner.awaitingHandler "a" []] } ∧
    (activeIds
      { jobs := [⟨"a", JStatus.active, 0, 5, 3, 0⟩]
        processing := true
        runners := [Runner.awaitingHandler "a" []] }).count "a" ≤ 1 := by
  have h1 : QReachable
      { jobs := [⟨"a", JStatus.waiting, 0, 5, 3, 0⟩]
        processing := false
        runners := [] } :=
    QReachable.step QReachable.init (QStep.add initQ "a" 5 3 0)
  have h2 : QReachable
      { jobs := [⟨"a", JStatus.waiting, 0, 5, 3, 0⟩]
        processing := true
        runners := [Runner.running ["a"]] } :=
    QReachable.step h1 (QStep.beginRun _ rfl)
  have h3 : QReachable
      { jobs := [⟨"a", JStatus.active, 0, 5, 3, 0⟩]
        processing := true
        runners := [Runner.awaitingHandler "a" []] } :=
    QReachable.step h2 (QStep.startJob _ "a" [] [] [] rfl)
  exact ⟨h3, C5_at_most_one_active_per_id _ h3 "a"⟩

/-! ### C6: the status query endpoint
(`DeploymentController.getDeploymentStatus`) -/

/-- The responses the endpoint can produce: 400 for an empty id, 404, the
coarse fallback assembled from the queue job's state and progress, or the
response assembled from the persisted hash fields. -/
inductive StatusResp
  | badRequest
  | notFound
  | fromJob (state : JStatus) (progressVal : Nat)
  | fromRecord (status : String) (progressVal : Nat)
  deriving DecidableEq, Repr

/-- `parseInt(statusData.progress) || 0`. -/
def parseProgress (progressField : Option String) : Nat :=
  (progressField.bind String.toNat?).getD 0

/-- `DeploymentController.getDeploymentStatus`
(`deploymentController.ts:7`–111): 400 on an empty id; read the hash at
`deployment:<id>:status`; when the hash's `status` field is absent, fall
back to the queue — 404 if `getJob` finds nothing, otherwise a response
derived from the job's state and progress; only when the `status` field is
present answer from the stored record.  Note the multi-project pipeline
persists its record under the hash's `data` field and never writes a
`status` field. -/
def getDeploymentStatusResp (store : Store) (queueJobs : List MemJob)
    (deploymentId : String) : StatusResp :=
  if deploymentId = "" then StatusResp.badRequest
  else
    match (hgetall store (statusKey deploymentId)).status with
    | none =>
        match queueJobs.find? (fun j => j.id = deploymentId) with
        | none => StatusResp.notFound
        | some j => StatusResp.fromJob j.status j.progressVal
    | some st =>
        StatusResp.fromRecord st
          (parseProgress (hgetall store (statusKey deploymentId)).progress)

/-- C6, code bug: after the pipeline has persisted a status record for
`deploy-1` (via `initializeDeploymentStatus`, which stores the record in the
hash's `data` field), the endpoint still answers 404 when the queue holds no
job for that id, and answers only the coarse job-derived fallback when the
job exists — the persisted record is never returned, because the reader
checks the hash's `status` field, which the multi-project writers never
set. -/
theorem C6_code_bug_status_field_mismatch :
    (getData (initializeDeploymentStatus "t0" [] "deploy-1" ["admin-portal"])
        "deploy-1").isSome = true ∧
    getDeploymentStatusResp
        (initializeDeploymentStatus "t0" [] "deploy-1" ["admin-portal"]) []
        "deploy-1" = StatusResp.notFound ∧
    getDeploymentStatusResp
        (initializeDeploymentStatus "t0" [] "deploy-1" ["admin-portal"])
        [⟨"deploy-1", JStatus.active, 50, 5, 3, 0⟩] "deploy-1" =
      StatusResp.fromJob JStatus.active 50 := by
  refine ⟨by decide, by decide, by decide⟩

end DeployService
